import Mathlib

/-!
Verification development for src/models/vqvae.py (minVAR).

Structural level: every nn module is modelled as a record of its constructed
sub-module parameters; the `construct` functions mirror the Python `__init__`
bodies line by line, returning `none` exactly where construction raises
(nn.GroupNorm's channel-divisibility check, Python list indexing).

Shape level: `fwdShape` / `forwardShape` functions mirror the `forward`
methods on (batch, channels, height, width) shapes, using the standard
convolution output-size formula; normalization and elementwise activation
are shape-preserving.

Value level (namespace `Dataflow`): the orchestration dataflow of
`VQVAE.forward`, `VQVAE.to_img`, `VQVAE.img_to_indices` and
`AttnBlock.forward` over abstract tensor types, with the numeric-library
primitives (convolution, normalization, attention) as opaque parameters, as
the spec treats them (black-box operators with known shape semantics).
-/

namespace MinVAR

/-- Shape of a 4-dimensional tensor (batch, channels, height, width). -/
structure Shape4 where
  b : Nat
  c : Nat
  h : Nat
  w : Nat

/-- Parameters of an nn.Conv2d layer as used in vqvae.py (square kernel,
identical stride and padding on both spatial axes). -/
structure Conv2d where
  in_channels : Nat
  out_channels : Nat
  kernel_size : Nat
  stride : Nat
  padding : Nat

/-- Output spatial extent of a convolution: floor((n + 2*padding - kernel)/stride) + 1,
torch's formula (meaningful when n + 2*padding is at least the kernel size;
torch raises on smaller inputs, which the shape theorems exclude by hypothesis). -/
def Conv2d.outDim (conv : Conv2d) (n : Nat) : Nat :=
  (n + 2 * conv.padding - conv.kernel_size) / conv.stride + 1

/-- Shape effect of applying a convolution to a (B, C, H, W) tensor. -/
def Conv2d.fwdShape (conv : Conv2d) (s : Shape4) : Shape4 :=
  ⟨s.b, conv.out_channels, conv.outDim s.h, conv.outDim s.w⟩

/-- Parameters of an nn.GroupNorm layer (eps and affine are fixed in vqvae.py). -/
structure GroupNorm where
  num_groups : Nat
  num_channels : Nat

/-- nn.GroupNorm raises ValueError at construction when num_channels is not
divisible by num_groups (documented behavior of the numeric library, which the
spec treats as a black box; the check runs at module construction time). -/
def GroupNorm.construct (num_groups num_channels : Nat) : Option GroupNorm :=
  if num_channels % num_groups = 0 then some ⟨num_groups, num_channels⟩ else none

/-- Structural record of AttnBlock (vqvae.py lines 29-39). -/
structure AttnBlock where
  in_channels : Nat
  norm : GroupNorm
  q : Conv2d
  k : Conv2d
  v : Conv2d
  proj_out : Conv2d

/-- Mirrors AttnBlock.__init__ (vqvae.py lines 30-39): GroupNorm with 32 groups
over in_channels, and four 1x1 channel-preserving convolutions. -/
def AttnBlock.construct (in_channels : Nat) : Option AttnBlock :=
  match GroupNorm.construct 32 in_channels with
  | none => none
  | some n =>
    some ⟨in_channels, n, ⟨in_channels, in_channels, 1, 1, 0⟩,
      ⟨in_channels, in_channels, 1, 1, 0⟩, ⟨in_channels, in_channels, 1, 1, 0⟩,
      ⟨in_channels, in_channels, 1, 1, 0⟩⟩

/-- Shape effect of AttnBlock.forward (vqvae.py lines 41-53): GroupNorm
preserves the shape, the rearrange to (b, 1, h*w, c), attention, and rearrange
back restore (B, C, H, W) with the original H and W, and the residual add
returns the shape of proj_out's output. -/
def AttnBlock.fwdShape (a : AttnBlock) (s : Shape4) : Shape4 :=
  a.proj_out.fwdShape s

/-- Structural record of ResnetBlock (vqvae.py lines 56-68). -/
structure ResnetBlock where
  in_channels : Nat
  out_channels : Nat
  norm1 : GroupNorm
  conv1 : Conv2d
  norm2 : GroupNorm
  conv2 : Conv2d
  nin_shortcut : Option Conv2d

/-- Mirrors ResnetBlock.__init__ (vqvae.py lines 57-68): a None out_channels
defaults to in_channels (line 60); both GroupNorms use 32 groups; the 1x1
shortcut convolution exists exactly when in_channels differs from out_channels. -/
def ResnetBlock.construct (in_channels : Nat) (out_channels : Option Nat) :
    Option ResnetBlock :=
  let outC := out_channels.getD in_channels
  match GroupNorm.construct 32 in_channels, GroupNorm.construct 32 outC with
  | some n1, some n2 =>
    some ⟨in_channels, outC, n1, ⟨in_channels, outC, 3, 1, 1⟩, n2,
      ⟨outC, outC, 3, 1, 1⟩,
      if in_channels ≠ outC then some ⟨in_channels, outC, 1, 1, 0⟩ else none⟩
  | _, _ => none

/-- Shape effect of ResnetBlock.forward (vqvae.py lines 70-83): norm and swish
preserve the shape, conv1 then conv2 determine the result; the residual add
(with the 1x1 shortcut when channels change) matches that shape. -/
def ResnetBlock.fwdShape (r : ResnetBlock) (s : Shape4) : Shape4 :=
  r.conv2.fwdShape (r.conv1.fwdShape s)

/-- Structural record of Downsample (vqvae.py lines 86-94). -/
structure Downsample where
  conv : Conv2d

/-- Mirrors Downsample.__init__ (vqvae.py lines 87-89): a channel-preserving
kernel-3 stride-2 no-padding convolution. -/
def Downsample.construct (in_channels : Nat) : Downsample :=
  ⟨⟨in_channels, in_channels, 3, 2, 0⟩⟩

/-- Shape effect of Downsample.forward (vqvae.py lines 91-94): asymmetric zero
padding by 1 on the right and bottom only, then the convolution. -/
def Downsample.fwdShape (d : Downsample) (s : Shape4) : Shape4 :=
  d.conv.fwdShape ⟨s.b, s.c, s.h + 1, s.w + 1⟩

/-- Structural record of Upsample (vqvae.py lines 97-104). -/
structure Upsample where
  conv : Conv2d

/-- Mirrors Upsample.__init__ (vqvae.py lines 98-100): a channel-preserving
kernel-3 stride-1 padding-1 convolution. -/
def Upsample.construct (in_channels : Nat) : Upsample :=
  ⟨⟨in_channels, in_channels, 3, 1, 1⟩⟩

/-- Shape effect of Upsample.forward (vqvae.py lines 102-104): nearest-neighbor
interpolation with scale factor 2 doubles both spatial extents, then the
convolution. -/
def Upsample.fwdShape (u : Upsample) (s : Shape4) : Shape4 :=
  u.conv.fwdShape ⟨s.b, s.c, 2 * s.h, 2 * s.w⟩

/-- One encoder resolution level as stored on self.down (vqvae.py lines 138-144):
a list of ResnetBlocks, a (always empty) list of AttnBlocks, and a Downsample
on every level except the last. -/
structure EncLevel where
  block : List ResnetBlock
  attn : List AttnBlock
  downsample : Option Downsample

/-- One decoder resolution level as stored on self.up (vqvae.py lines 207-213). -/
structure DecLevel where
  block : List ResnetBlock
  attn : List AttnBlock
  upsample : Option Upsample

/-- The inner block loop shared by Encoder and Decoder level construction
(vqvae.py lines 135-137 and 204-206): n ResnetBlocks, the first mapping
block_in to block_out, the rest block_out to block_out; returns the blocks
together with the final value of block_in. -/
def buildBlocks (block_in block_out : Nat) : Nat → Option (List ResnetBlock × Nat)
  | 0 => some ([], block_in)
  | n + 1 =>
    match ResnetBlock.construct block_in (some block_out) with
    | none => none
    | some b =>
      match buildBlocks block_out block_out n with
      | none => none
      | some (rest, bfin) => some (b :: rest, bfin)

/-- Mirrors the level loop of Encoder.__init__ (vqvae.py lines 130-144).
The second argument is the running block_in (returned unchanged when no levels
remain, matching line 129); the third is in_ch_mult[i_level], 1 before the
first level and thereafter the previous multiplier (line 126); block_in is
overwritten at the start of each level (line 133); a Downsample is attached to
every level except the last (lines 141-143). -/
def Encoder.buildLevels (ch num_res_blocks : Nat) :
    Nat → Nat → List Nat → Option (List EncLevel × Nat)
  | block_in, _, [] => some ([], block_in)
  | _, in_mult, m :: rest =>
    let block_in := ch * in_mult
    let block_out := ch * m
    match buildBlocks block_in block_out num_res_blocks with
    | none => none
    | some (blocks, bfin) =>
      let lvl : EncLevel := ⟨blocks, [],
        if rest.isEmpty then none else some (Downsample.construct bfin)⟩
      match Encoder.buildLevels ch num_res_blocks bfin m rest with
      | none => none
      | some (lvls, bfin2) => some (lvl :: lvls, bfin2)

/-- Structural record of Encoder (vqvae.py lines 107-150). -/
structure Encoder where
  ch : Nat
  num_resolutions : Nat
  num_res_blocks : Nat
  resolution : Nat
  in_channels : Nat
  conv_in : Conv2d
  down : List EncLevel
  mid_block_1 : ResnetBlock
  mid_attn_1 : AttnBlock
  mid_block_2 : ResnetBlock
  norm_out : GroupNorm
  conv_out : Conv2d

/-- Mirrors Encoder.__init__ (vqvae.py lines 107-150). -/
def Encoder.construct (resolution in_channels ch : Nat) (ch_mult : List Nat)
    (num_res_blocks z_channels : Nat) : Option Encoder :=
  match Encoder.buildLevels ch num_res_blocks ch 1 ch_mult with
  | none => none
  | some (lvls, block_in) =>
    match ResnetBlock.construct block_in (some block_in),
        AttnBlock.construct block_in,
        ResnetBlock.construct block_in (some block_in),
        GroupNorm.construct 32 block_in with
    | some b1, some a1, some b2, some nout =>
      some ⟨ch, ch_mult.length, num_res_blocks, resolution, in_channels,
        ⟨in_channels, ch, 3, 1, 1⟩, lvls, b1, a1, b2, nout,
        ⟨block_in, z_channels, 3, 1, 1⟩⟩
    | _, _, _, _ => none

/-- Shape effect of one level's ResnetBlock/AttnBlock loop (vqvae.py lines
155-158 and 224-227): each block, then the attention block of the same index
when the level's attention list is non-empty (it never is in the constructed
model, but the code path exists). -/
def levelBlocksShape (useAttn : Bool) :
    List ResnetBlock → List AttnBlock → Shape4 → Shape4
  | [], _, s => s
  | b :: bs, attns, s =>
    let s1 := b.fwdShape s
    let s2 := if useAttn then
        (match attns.head? with
        | some a => a.fwdShape s1
        | none => s1)
      else s1
    levelBlocksShape useAttn bs (attns.drop 1) s2

/-- Shape effect of one encoder level in Encoder.forward (lines 154-160). -/
def EncLevel.fwdShape (lvl : EncLevel) (s : Shape4) : Shape4 :=
  let s1 := levelBlocksShape (!lvl.attn.isEmpty) lvl.block lvl.attn s
  match lvl.downsample with
  | some d => d.fwdShape s1
  | none => s1

/-- Shape effect of Encoder.forward (vqvae.py lines 152-167); norm_out and
swish are shape-preserving elementwise operators. -/
def Encoder.forwardShape (e : Encoder) (s : Shape4) : Shape4 :=
  let h0 := e.conv_in.fwdShape s
  let h1 := e.down.foldl (fun h lvl => lvl.fwdShape h) h0
  let h2 := e.mid_block_2.fwdShape (e.mid_attn_1.fwdShape (e.mid_block_1.fwdShape h1))
  e.conv_out.fwdShape h2

/-- Mirrors the reversed level loop of Decoder.__init__ (vqvae.py lines
199-213).  The list argument is ch_mult reversed (construction visits levels
in decreasing index order); each level has num_res_blocks + 1 blocks; an
Upsample is attached to every level except i_level = 0, the last constructed
(lines 210-212); each level is prepended (line 213), so the result list is in
increasing i_level order. -/
def Decoder.buildLevels (ch num_res_blocks : Nat) :
    Nat → List Nat → Option (List DecLevel × Nat)
  | block_in, [] => some ([], block_in)
  | block_in, m :: rest =>
    let block_out := ch * m
    match buildBlocks block_in block_out (num_res_blocks + 1) with
    | none => none
    | some (blocks, bfin) =>
      let lvl : DecLevel := ⟨blocks, [],
        if rest.isEmpty then none else some (Upsample.construct bfin)⟩
      match Decoder.buildLevels ch num_res_blocks bfin rest with
      | none => none
      | some (lvls, bfin2) => some (lvls ++ [lvl], bfin2)

/-- Structural record of Decoder (vqvae.py lines 170-216). -/
structure Decoder where
  ch : Nat
  num_resolutions : Nat
  num_res_blocks : Nat
  resolution : Nat
  in_channels : Nat
  ffactor : Nat
  z_shape : Shape4
  conv_in : Conv2d
  mid_block_1 : ResnetBlock
  mid_attn_1 : AttnBlock
  mid_block_2 : ResnetBlock
  up : List DecLevel
  norm_out : GroupNorm
  conv_out : Conv2d

/-- Mirrors Decoder.__init__ (vqvae.py lines 170-216).  The initial
block_in = ch * ch_mult[num_resolutions - 1] (line 188) is Python indexing
with index -1 when ch_mult is empty, which raises IndexError: hence getLast?. -/
def Decoder.construct (ch out_ch : Nat) (ch_mult : List Nat)
    (num_res_blocks in_channels resolution z_channels : Nat) : Option Decoder :=
  match ch_mult.getLast? with
  | none => none
  | some lastm =>
    let block_in := ch * lastm
    let curr_res := resolution / 2 ^ (ch_mult.length - 1)
    match ResnetBlock.construct block_in (some block_in),
        AttnBlock.construct block_in,
        ResnetBlock.construct block_in (some block_in) with
    | some b1, some a1, some b2 =>
      match Decoder.buildLevels ch num_res_blocks block_in ch_mult.reverse with
      | none => none
      | some (lvls, bfin) =>
        match GroupNorm.construct 32 bfin with
        | none => none
        | some nout =>
          some ⟨ch, ch_mult.length, num_res_blocks, resolution, in_channels,
            2 ^ (ch_mult.length - 1), ⟨1, z_channels, curr_res, curr_res⟩,
            ⟨z_channels, block_in, 3, 1, 1⟩, b1, a1, b2, lvls, nout,
            ⟨bfin, out_ch, 3, 1, 1⟩⟩
    | _, _, _ => none

/-- Shape effect of one decoder level in Decoder.forward (lines 224-229). -/
def DecLevel.fwdShape (lvl : DecLevel) (s : Shape4) : Shape4 :=
  let s1 := levelBlocksShape (!lvl.attn.isEmpty) lvl.block lvl.attn s
  match lvl.upsample with
  | some u => u.fwdShape s1
  | none => s1

/-- Shape effect of Decoder.forward (vqvae.py lines 218-234); levels are
visited in reversed(range(num_resolutions)) order, i.e. the stored list
reversed; norm_out and swish preserve the shape. -/
def Decoder.forwardShape (d : Decoder) (s : Shape4) : Shape4 :=
  let h0 := d.conv_in.fwdShape s
  let h1 := d.mid_block_2.fwdShape (d.mid_attn_1.fwdShape (d.mid_block_1.fwdShape h0))
  let h2 := d.up.reverse.foldl (fun h lvl => lvl.fwdShape h) h1
  d.conv_out.fwdShape h2

/-- The VQVAEConfig dataclass (vqvae.py lines 12-22). -/
structure VQVAEConfig where
  resolution : Nat
  in_channels : Nat
  dim : Nat
  ch_mult : List Nat
  num_res_blocks : Nat
  z_channels : Nat
  out_ch : Nat
  vocab_size : Nat
  patch_sizes : List Nat

/-- Structural record of VQVAE (vqvae.py lines 237-251): the Encoder/Decoder
pair.  The external VectorQuantizer (src/models/quant.py, outside the visible
source) is constructed from vocab_size, z_channels and patch_sizes; modelled
from the spec it has no structural failure mode relevant to these claims, so
it contributes no field here. -/
structure VQVAE where
  encoder : Encoder
  decoder : Decoder

/-- Mirrors VQVAE.__init__ (vqvae.py lines 238-251): Encoder is constructed
first, then Decoder, each from the configuration fields. -/
def VQVAE.construct (config : VQVAEConfig) : Option VQVAE :=
  match Encoder.construct config.resolution config.in_channels config.dim
      config.ch_mult config.num_res_blocks config.z_channels with
  | none => none
  | some encoder =>
    match Decoder.construct config.dim config.out_ch config.ch_mult
        config.num_res_blocks config.in_channels config.resolution
        config.z_channels with
    | none => none
    | some decoder => some ⟨encoder, decoder⟩

/-- Modelled from the spec: the external VectorQuantizer (src/models/quant.py
is not part of the visible source) returns, per the interface contract of spec
section 6, a quantized feature map of the same shape (B, z_channels, H, W) as
its input latent; its shape effect is therefore the identity. -/
def VectorQuantizer.fhatShape (s : Shape4) : Shape4 := s

/-- Shape effect of VQVAE.forward (vqvae.py lines 253-257): Encoder, then the
quantizer's quantized feature map, then Decoder. -/
def VQVAE.forwardShape (m : VQVAE) (s : Shape4) : Shape4 :=
  m.decoder.forwardShape (VectorQuantizer.fhatShape (m.encoder.forwardShape s))

/-- The example configuration from the module's main block (vqvae.py lines
275-286). -/
def exampleConfig : VQVAEConfig :=
  ⟨256, 3, 128, [1, 2, 4, 4], 2, 64, 3, 8192, [1, 2, 3, 4, 5, 6, 8, 10, 13, 16, 32]⟩

namespace Dataflow

/-- The 5-tuple returned by the external quantizer (vqvae.py line 255 unpacks
it as fhat, r_maps, idxs, scales, loss), with abstract component types. -/
structure QuantOut (T R I S L : Type) where
  fhat : T
  r_maps : List R
  idxs : List I
  scales : List S
  loss : L

/-- The 5-tuple returned by VQVAE.forward (vqvae.py line 257), in the order
x_hat, r_maps, idxs, scales, loss. -/
structure VQVAEOut (T R I S L : Type) where
  x_hat : T
  r_maps : List R
  idxs : List I
  scales : List S
  loss : L

variable {T R I S L : Type}

/-- Dataflow of VQVAE.forward (vqvae.py lines 253-257) with the Encoder, the
external Quantizer and the Decoder as opaque functions: encode, quantize,
decode the quantized map, and return the reconstruction with the quantizer's
remaining outputs in the quantizer's order. -/
def VQVAE.forward (encoder : T → T) (quantizer : T → QuantOut T R I S L)
    (decoder : T → T) (x : T) : VQVAEOut T R I S L :=
  let f := encoder x
  let q := quantizer f
  ⟨decoder q.fhat, q.r_maps, q.idxs, q.scales, q.loss⟩

/-- torch.Tensor.clamp with bounds lo and hi: min (max v lo) hi, elementwise. -/
def clamp (lo hi v : ℚ) : ℚ := min (max v lo) hi

/-- Dataflow of VQVAE.to_img (vqvae.py lines 265-266): only the Decoder runs,
followed by the elementwise clamp to [-1, 1]; the decoder's output tensor is
modelled by its flattened list of rational values. -/
def VQVAE.to_img (decoder : T → List ℚ) (f_hat_BCHW : T) : List ℚ :=
  (decoder f_hat_BCHW).map (clamp (-1) 1)

/-- Dataflow of VQVAE.img_to_indices (vqvae.py lines 268-271): Encoder, then
quantizer, then only the idxs component of the quantizer's 5-tuple is kept. -/
def VQVAE.img_to_indices (encoder : T → T)
    (quantizer : T → QuantOut T R I S L) (x : T) : List I :=
  let f := encoder x
  let q := quantizer f
  q.idxs

/-- The primitive operators an AttnBlock owns (vqvae.py lines 30-39), opaque:
norm is the GroupNorm, q k v proj_out the four 1x1 convolutions, and attention
the composite rearrange / scaled_dot_product_attention / rearrange-back of
lines 48-52. -/
structure AttnOps (T : Type) where
  norm : T → T
  q : T → T
  k : T → T
  v : T → T
  proj_out : T → T
  attention : T → T → T → T

/-- Dataflow of AttnBlock.forward (vqvae.py lines 41-53) over an abstract
tensor type.  Line 42 rebinds x_BCHW to the normalized tensor, so the residual
add on line 53 uses the normalized input, not the original argument. -/
def AttnBlock.forward [Add T] (ops : AttnOps T) (x_BCHW : T) : T :=
  let xn := ops.norm x_BCHW
  let h := ops.attention (ops.q xn) (ops.k xn) (ops.v xn)
  xn + ops.proj_out h

/-- A concrete, realizable instance of the AttnBlock primitives on a 1x32x1x1
feature map, with values read off as a single number: a GroupNorm whose affine
weight is 0 and bias is 1 maps every input to the constant 1; the four 1x1
convolutions have identity weight and zero bias; with a single spatial
position, scaled dot-product attention returns v unchanged. -/
def attnOpsConst : AttnOps ℤ :=
  ⟨fun _ => 1, id, id, id, id, fun _ _ v => v⟩

end Dataflow

/-! ### Helper lemmas about convolution shapes -/

/-- A kernel-3 stride-1 padding-1 convolution preserves positive spatial extents. -/
theorem Conv2d.fwdShape_k3s1p1 (a b B c hh ww : Nat) (h1 : 1 ≤ hh) (h2 : 1 ≤ ww) :
    Conv2d.fwdShape ⟨a, b, 3, 1, 1⟩ ⟨B, c, hh, ww⟩ = ⟨B, b, hh, ww⟩ := by
  simp only [Conv2d.fwdShape, Conv2d.outDim, Shape4.mk.injEq]
  refine ⟨trivial, trivial, by omega, by omega⟩

/-- A kernel-1 stride-1 padding-0 convolution preserves positive spatial extents. -/
theorem Conv2d.fwdShape_k1s1p0 (a b B c hh ww : Nat) (h1 : 1 ≤ hh) (h2 : 1 ≤ ww) :
    Conv2d.fwdShape ⟨a, b, 1, 1, 0⟩ ⟨B, c, hh, ww⟩ = ⟨B, b, hh, ww⟩ := by
  simp only [Conv2d.fwdShape, Conv2d.outDim, Shape4.mk.injEq]
  refine ⟨trivial, trivial, by omega, by omega⟩

/-! ### Claim theorems: C5, C10, C2, C6, C9, C7 -/

/-- Claim C5: Downsample — asymmetric zero-padding by 1 on the right and
bottom only, then a kernel-3 stride-2 no-padding convolution — maps an even
positive spatial size n to exactly n / 2, with the channel count unchanged. -/
theorem downsample_halves_even_spatial (c B n : Nat) (h2 : 2 ∣ n) (h0 : 0 < n) :
    (Downsample.construct c).fwdShape ⟨B, c, n, n⟩ = ⟨B, c, n / 2, n / 2⟩ := by
  simp only [Downsample.construct, Downsample.fwdShape, Conv2d.fwdShape, Conv2d.outDim,
    Shape4.mk.injEq]
  refine ⟨trivial, trivial, by omega, by omega⟩

/-- Witness for downsample_halves_even_spatial: channel count 64, even spatial
size 6, output shape (1, 64, 3, 3). -/
theorem downsample_halves_even_spatial_witness :
    (Downsample.construct 64).fwdShape ⟨1, 64, 6, 6⟩ = ⟨1, 64, 3, 3⟩ :=
  downsample_halves_even_spatial 64 1 6 (by decide) (by decide)

/-- Claim C10: constructing a ResnetBlock with out_channels = None yields
exactly the block constructed with out_channels = in_channels, and whenever the
block constructs, its nin_shortcut is absent. -/
theorem resnetblock_none_out_channels_defaults (c : Nat) :
    ResnetBlock.construct c none = ResnetBlock.construct c (some c) ∧
    (ResnetBlock.construct c none).map ResnetBlock.nin_shortcut
      = (ResnetBlock.construct c none).map (fun _ => none) := by
  refine ⟨rfl, ?_⟩
  by_cases h32 : c % 32 = 0 <;>
    simp [ResnetBlock.construct, GroupNorm.construct, h32]

/-- Claim C2 (code bug evaluation): on the concrete realizable AttnBlock
instance attnOpsConst (GroupNorm constantly 1, identity 1x1 convolutions,
single spatial position) and input 0, the code's forward returns
norm(x) + proj_out(h) = 2, while the pre-normalization residual
x + proj_out(h) the claim describes equals 1: line 42 of vqvae.py rebinds
x_BCHW, so the residual on line 53 adds the normalized input. -/
theorem attnblock_residual_adds_normalized_input :
    Dataflow.AttnBlock.forward Dataflow.attnOpsConst 0 = 2 ∧
    (0 : ℤ) + Dataflow.attnOpsConst.proj_out
        (Dataflow.attnOpsConst.attention
          (Dataflow.attnOpsConst.q (Dataflow.attnOpsConst.norm 0))
          (Dataflow.attnOpsConst.k (Dataflow.attnOpsConst.norm 0))
          (Dataflow.attnOpsConst.v (Dataflow.attnOpsConst.norm 0))) = 1 := by
  constructor <;> decide

/-- Claim C6: VQVAE.forward returns the quantizer's residual maps, index
grids, scale factors and auxiliary loss exactly as the quantizer produced
them, in the quantizer's order, alongside the Decoder's reconstruction of the
quantized feature map. -/
theorem vqvae_forward_passes_quantizer_outputs_unchanged
    (T R I S L : Type) (encoder : T → T)
    (quantizer : T → Dataflow.QuantOut T R I S L) (decoder : T → T) (x : T) :
    (Dataflow.VQVAE.forward encoder quantizer decoder x).r_maps
        = (quantizer (encoder x)).r_maps ∧
    (Dataflow.VQVAE.forward encoder quantizer decoder x).idxs
        = (quantizer (encoder x)).idxs ∧
    (Dataflow.VQVAE.forward encoder quantizer decoder x).scales
        = (quantizer (encoder x)).scales ∧
    (Dataflow.VQVAE.forward encoder quantizer decoder x).loss
        = (quantizer (encoder x)).loss ∧
    (Dataflow.VQVAE.forward encoder quantizer decoder x).x_hat
        = decoder (quantizer (encoder x)).fhat :=
  ⟨rfl, rfl, rfl, rfl, rfl⟩

/-- Claim C9: img_to_indices equals the idxs component (third element) of the
5-tuple VQVAE.forward returns, computed by the identical Encoder-then-Quantizer
pipeline; the equality holds for every decoder, so the Decoder is never
invoked on this path. -/
theorem img_to_indices_matches_forward_idxs
    (T R I S L : Type) (encoder : T → T)
    (quantizer : T → Dataflow.QuantOut T R I S L) (decoder : T → T) (x : T) :
    Dataflow.VQVAE.img_to_indices encoder quantizer x
      = (Dataflow.VQVAE.forward encoder quantizer decoder x).idxs := rfl

/-- Claim C7: every value the decode-only entry point to_img returns lies in
[-1, 1], whatever the decoder's raw output values are. -/
theorem to_img_values_within_range (T : Type) (decoder : T → List ℚ)
    (f_hat : T) (v : ℚ) (hv : v ∈ Dataflow.VQVAE.to_img decoder f_hat) :
    -1 ≤ v ∧ v ≤ 1 := by
  obtain ⟨u, _, rfl⟩ := List.mem_map.mp hv
  unfold Dataflow.clamp
  exact ⟨le_min (le_max_right u (-1)) (by norm_num), min_le_right _ _⟩

/-- Witness for to_img_values_within_range: a decoder whose raw output value 2
exceeds the valid range; to_img clamps it to 1, which is a member of the
output and lies within the bounds. -/
theorem to_img_values_within_range_witness :
    (1 : ℚ) ∈ Dataflow.VQVAE.to_img (fun _ : Unit => [2]) () ∧
    (-1 ≤ (1 : ℚ) ∧ (1 : ℚ) ≤ 1) :=
  ⟨by decide, to_img_values_within_range Unit (fun _ => [2]) () 1 (by decide)⟩

/-! ### Construction-failure lemmas (C3, C8) -/

/-- A successfully constructed ResnetBlock certifies that both channel widths
pass the GroupNorm divisibility check. -/
theorem resnet_construct_some_mod (bi bo : Nat) (r : ResnetBlock)
    (h : ResnetBlock.construct bi (some bo) = some r) :
    bi % 32 = 0 ∧ bo % 32 = 0 := by
  by_cases h1 : bi % 32 = 0 <;> by_cases h2 : bo % 32 = 0
  · exact ⟨h1, h2⟩
  all_goals simp [ResnetBlock.construct, GroupNorm.construct, h1, h2] at h

/-- A successfully constructed non-empty block run certifies the divisibility
of both its boundary channel widths. -/
theorem buildBlocks_some_mod (bi bo n : Nat) (p : List ResnetBlock × Nat)
    (h : buildBlocks bi bo n = some p) (hn : 0 < n) :
    bi % 32 = 0 ∧ bo % 32 = 0 := by
  cases n with
  | zero => omega
  | succ k =>
    cases hc : ResnetBlock.construct bi (some bo) with
    | none => simp [buildBlocks, hc] at h
    | some b => exact resnet_construct_some_mod bi bo b hc

/-- A successfully constructed run of encoder levels certifies the
divisibility of ch * in_mult (when at least one level exists) and of
ch * m for every multiplier m, provided each level has at least one block. -/
theorem encoder_buildLevels_some_mod (ch nrb : Nat) (hnrb : 0 < nrb) :
    ∀ (muls : List Nat) (bi0 im : Nat) (p : List EncLevel × Nat),
      Encoder.buildLevels ch nrb bi0 im muls = some p →
      (muls ≠ [] → (ch * im) % 32 = 0) ∧ ∀ m ∈ muls, (ch * m) % 32 = 0 := by
  intro muls
  induction muls with
  | nil => intro bi0 im p h; exact ⟨fun hne => absurd rfl hne, by simp⟩
  | cons m rest ih =>
    intro bi0 im p h
    cases hb : buildBlocks (ch * im) (ch * m) nrb with
    | none => simp [Encoder.buildLevels, hb] at h
    | some q =>
      obtain ⟨blocks, bfin⟩ := q
      cases hr : Encoder.buildLevels ch nrb bfin m rest with
      | none => simp [Encoder.buildLevels, hb, hr] at h
      | some q2 =>
        have h1 := buildBlocks_some_mod (ch * im) (ch * m) nrb _ hb hnrb
        have h2 := ih bfin m q2 hr
        refine ⟨fun _ => h1.1, ?_⟩
        intro x hx
        rcases List.mem_cons.mp hx with hx | hx
        · subst hx; exact h1.2
        · exact h2.2 x hx

/-- A successfully constructed Encoder certifies divisibility by 32 of the
base width and of every level width (each level having at least one block). -/
theorem encoder_construct_some_mod (resolution in_channels ch : Nat)
    (ch_mult : List Nat) (nrb z : Nat) (e : Encoder)
    (h : Encoder.construct resolution in_channels ch ch_mult nrb z = some e)
    (hnrb : 0 < nrb) :
    ch % 32 = 0 ∧ ∀ m ∈ ch_mult, (ch * m) % 32 = 0 := by
  cases hb : Encoder.buildLevels ch nrb ch 1 ch_mult with
  | none => simp [Encoder.construct, hb] at h
  | some p =>
    obtain ⟨lvls, block_in⟩ := p
    cases ch_mult with
    | nil =>
      have hbi : block_in = ch := by
        simp [Encoder.buildLevels] at hb
        exact hb.2.symm
      subst hbi
      cases hc1 : ResnetBlock.construct block_in (some block_in) with
      | none => simp [Encoder.construct, hb, hc1] at h
      | some b1 =>
        exact ⟨(resnet_construct_some_mod _ _ _ hc1).1, by simp⟩
    | cons m rest =>
      have hm := encoder_buildLevels_some_mod ch nrb hnrb (m :: rest) ch 1 _ hb
      have hch : ch % 32 = 0 := by
        have := hm.1 (by simp)
        simpa using this
      exact ⟨hch, hm.2⟩

/-- Claim C8: every normalization layer is a GroupNorm with 32 groups, so a
configuration (with at least one residual block per level) in which the base
width dim (the implicit leading multiplier 1) or some level width dim * m is
not divisible by 32 fails at model construction time. -/
theorem vqvae_construct_requires_width_divisibility (cfg : VQVAEConfig)
    (hnrb : 0 < cfg.num_res_blocks)
    (hviol : ¬ 32 ∣ cfg.dim ∨ ∃ m ∈ cfg.ch_mult, ¬ 32 ∣ cfg.dim * m) :
    VQVAE.construct cfg = none := by
  cases he : Encoder.construct cfg.resolution cfg.in_channels cfg.dim cfg.ch_mult
      cfg.num_res_blocks cfg.z_channels with
  | none => simp [VQVAE.construct, he]
  | some e =>
    exfalso
    obtain ⟨h1, h2⟩ := encoder_construct_some_mod _ _ _ _ _ _ e he hnrb
    rcases hviol with hv | ⟨m, hm, hv⟩
    · exact hv (by omega)
    · have := h2 m hm
      exact hv (by omega)

/-- A configuration with base width 48, which 32 does not divide. -/
def badWidthConfig : VQVAEConfig := ⟨256, 3, 48, [1, 2], 2, 64, 3, 8192, [1]⟩

/-- Witness for vqvae_construct_requires_width_divisibility: dim = 48 is not
divisible by 32, and model construction fails. -/
theorem vqvae_construct_requires_width_divisibility_witness :
    VQVAE.construct badWidthConfig = none :=
  vqvae_construct_requires_width_divisibility badWidthConfig (by decide)
    (Or.inl (by decide))

/-- A configuration whose resolution 255 is not divisible by
2^(num_resolutions - 1) = 8, with all channel widths valid. -/
def badResolutionConfig : VQVAEConfig :=
  ⟨255, 3, 128, [1, 2, 4, 4], 2, 64, 3, 8192, [1, 2, 3, 4, 5, 6, 8, 10, 13, 16, 32]⟩

/-- Claim C3 counterexample: badResolutionConfig violates the
resolution-divisibility invariant, yet model construction succeeds — the code
performs no construction-time validation of that invariant. -/
theorem vqvae_construct_accepts_indivisible_resolution :
    ¬ (2 ^ (badResolutionConfig.ch_mult.length - 1) ∣ badResolutionConfig.resolution) ∧
    (VQVAE.construct badResolutionConfig).isSome = true := by
  constructor
  · decide
  · rfl

/-- Claim C3 amended: with ch_mult empty, model construction fails — the
Decoder's access to the last element of ch_mult raises IndexError; the
resolution invariant, by contrast, is not checked at construction time at all
(vqvae_construct_accepts_indivisible_resolution). -/
theorem vqvae_construct_fails_on_empty_ch_mult (cfg : VQVAEConfig)
    (h : cfg.ch_mult = []) : VQVAE.construct cfg = none := by
  cases he : Encoder.construct cfg.resolution cfg.in_channels cfg.dim cfg.ch_mult
      cfg.num_res_blocks cfg.z_channels with
  | none => simp [VQVAE.construct, he]
  | some e =>
    simp [VQVAE.construct, he, Decoder.construct, h]
    split <;> rfl

/-- Witness for vqvae_construct_fails_on_empty_ch_mult at a concrete
configuration with empty ch_mult. -/
theorem vqvae_construct_fails_on_empty_ch_mult_witness :
    VQVAE.construct ⟨256, 3, 128, [], 2, 64, 3, 8192, []⟩ = none :=
  vqvae_construct_fails_on_empty_ch_mult _ rfl

/-! ### Shape lemmas for constructed blocks and levels (C4, C1) -/

/-- A constructed ResnetBlock preserves positive spatial extents and sets the
channel count to its out_channels. -/
theorem resnet_construct_some_fwdShape (bi bo : Nat) (r : ResnetBlock)
    (h : ResnetBlock.construct bi (some bo) = some r) (B c hh ww : Nat)
    (h1 : 1 ≤ hh) (h2 : 1 ≤ ww) :
    r.fwdShape ⟨B, c, hh, ww⟩ = ⟨B, bo, hh, ww⟩ := by
  by_cases hm1 : bi % 32 = 0 <;> by_cases hm2 : bo % 32 = 0 <;>
    simp only [ResnetBlock.construct, GroupNorm.construct, hm1, hm2, if_true, if_false,
      Option.getD_some, ite_true, ite_false, Option.some.injEq, reduceCtorEq] at h
  subst h
  simp only [ResnetBlock.fwdShape]
  rw [Conv2d.fwdShape_k3s1p1 bi bo B c hh ww h1 h2,
    Conv2d.fwdShape_k3s1p1 bo bo B bo hh ww h1 h2]

/-- A constructed AttnBlock preserves positive spatial extents and the channel
count. -/
theorem attn_construct_some_fwdShape (cc : Nat) (a : AttnBlock)
    (h : AttnBlock.construct cc = some a) (B c hh ww : Nat)
    (h1 : 1 ≤ hh) (h2 : 1 ≤ ww) :
    a.fwdShape ⟨B, c, hh, ww⟩ = ⟨B, cc, hh, ww⟩ := by
  by_cases hm1 : cc % 32 = 0 <;>
    simp only [AttnBlock.construct, GroupNorm.construct, hm1, if_true, if_false,
      ite_true, ite_false, Option.some.injEq, reduceCtorEq] at h
  subst h
  simp only [AttnBlock.fwdShape]
  exact Conv2d.fwdShape_k1s1p0 cc cc B c hh ww h1 h2

/-- Shape effect of a constructed block run: the blocks preserve positive
spatial extents, set the channel count to block_out when the run is non-empty,
and the returned final block_in is block_out for non-empty runs. -/
theorem buildBlocks_some_fwdShape (bo : Nat) :
    ∀ (n bi : Nat) (blks : List ResnetBlock) (bfin : Nat),
      buildBlocks bi bo n = some (blks, bfin) →
      (bfin = if n = 0 then bi else bo) ∧
      ∀ (B c hh ww : Nat), 1 ≤ hh → 1 ≤ ww →
        levelBlocksShape false blks [] ⟨B, c, hh, ww⟩
          = ⟨B, if n = 0 then c else bo, hh, ww⟩ := by
  intro n
  induction n with
  | zero =>
    intro bi blks bfin h
    simp only [buildBlocks, Option.some.injEq, Prod.mk.injEq] at h
    obtain ⟨rfl, rfl⟩ := h
    exact ⟨by simp, fun B c hh ww h1 h2 => by simp [levelBlocksShape]⟩
  | succ k ih =>
    intro bi blks bfin h
    cases hc : ResnetBlock.construct bi (some bo) with
    | none => simp [buildBlocks, hc] at h
    | some b =>
      cases hb : buildBlocks bo bo k with
      | none => simp [buildBlocks, hc, hb] at h
      | some q =>
        obtain ⟨rest, bfin0⟩ := q
        simp only [buildBlocks, hc, hb, Option.some.injEq, Prod.mk.injEq] at h
        obtain ⟨rfl, rfl⟩ := h
        obtain ⟨hfin, hfold⟩ := ih bo rest bfin0 hb
        constructor
        · rw [hfin]
          by_cases hk : k = 0 <;> simp [hk]
        · intro B c hh ww h1 h2
          have hstep : levelBlocksShape false (b :: rest) [] ⟨B, c, hh, ww⟩
              = levelBlocksShape false rest [] (b.fwdShape ⟨B, c, hh, ww⟩) := rfl
          rw [hstep, resnet_construct_some_fwdShape bi bo b hc B c hh ww h1 h2,
            hfold B bo hh ww h1 h2]
          by_cases hk : k = 0 <;> simp [hk]

/-- Arithmetic helper: a power-of-two divisor splits across one halving. -/
theorem pow_two_dvd_split (k n : Nat) (h : 2 ^ (k + 1) ∣ n) :
    2 ∣ n ∧ 2 ^ k ∣ n / 2 := by
  obtain ⟨t, rfl⟩ := h
  constructor
  · exact ⟨2 ^ k * t, by rw [pow_succ]; ring⟩
  · refine ⟨t, ?_⟩
    rw [pow_succ, mul_comm (2 ^ k) 2, mul_assoc,
      Nat.mul_div_cancel_left _ (by norm_num : 0 < 2)]

/-- Shape effect of a constructed encoder level stack: with each level holding
at least one block, the stack sets the channel count to the returned final
block_in and divides both spatial extents by 2^(levels - 1). -/
theorem encoder_buildLevels_some_fwdShape (ch nrb : Nat) (hnrb : 0 < nrb)
    (muls : List Nat) :
    ∀ (bi0 im : Nat) (lvls : List EncLevel) (bfin : Nat),
      Encoder.buildLevels ch nrb bi0 im muls = some (lvls, bfin) →
      muls ≠ [] →
      ∀ (B c n : Nat), 0 < n → 2 ^ (muls.length - 1) ∣ n →
        lvls.foldl (fun h lvl => lvl.fwdShape h) ⟨B, c, n, n⟩
          = ⟨B, bfin, n / 2 ^ (muls.length - 1), n / 2 ^ (muls.length - 1)⟩ := by
  induction muls with
  | nil => intro bi0 im lvls bfin h hne; exact absurd rfl hne
  | cons m rest ih =>
    intro bi0 im lvls bfin h hne B c n hn hdvd
    have hnrb0 : nrb ≠ 0 := Nat.pos_iff_ne_zero.mp hnrb
    cases hb : buildBlocks (ch * im) (ch * m) nrb with
    | none => simp [Encoder.buildLevels, hb] at h
    | some q =>
      obtain ⟨blocks, bfin1⟩ := q
      cases hr : Encoder.buildLevels ch nrb bfin1 m rest with
      | none => simp [Encoder.buildLevels, hb, hr] at h
      | some q2 =>
        obtain ⟨lvls2, bfin2⟩ := q2
        simp only [Encoder.buildLevels, hb, hr, Option.some.injEq, Prod.mk.injEq] at h
        obtain ⟨rfl, rfl⟩ := h
        obtain ⟨hfin, hfold⟩ := buildBlocks_some_fwdShape (ch * m) nrb (ch * im) blocks bfin1 hb
        have hfin1 : bfin1 = ch * m := by rw [hfin]; simp [hnrb0]
        have hblocks : ∀ (cc : Nat), levelBlocksShape false blocks [] ⟨B, cc, n, n⟩
            = ⟨B, ch * m, n, n⟩ := by
          intro cc
          rw [hfold B cc n n hn hn]
          simp [hnrb0]
        rcases eq_or_ne rest ([] : List Nat) with hrest | hrest
        · subst hrest
          simp only [Encoder.buildLevels, Option.some.injEq, Prod.mk.injEq] at hr
          obtain ⟨rfl, rfl⟩ := hr
          simp only [List.foldl_cons, List.foldl_nil, List.length_cons, List.length_nil,
            Nat.add_sub_cancel, pow_zero, Nat.div_one]
          simp only [EncLevel.fwdShape, List.isEmpty_nil, List.isEmpty_cons,
            Bool.not_true, hblocks c]
          rw [hfin1]
          simp
        · have hrl : rest.length ≠ 0 := fun h0 => hrest (List.length_eq_zero.mp h0)
          have hlen : (m :: rest).length - 1 = (rest.length - 1) + 1 := by
            simp [List.length_cons]; omega
          rw [hlen] at hdvd
          obtain ⟨h2, hdvd2⟩ := pow_two_dvd_split (rest.length - 1) n hdvd
          have hds : EncLevel.fwdShape
              ⟨blocks, [], if rest.isEmpty then none else some (Downsample.construct bfin1)⟩
              ⟨B, c, n, n⟩ = ⟨B, ch * m, n / 2, n / 2⟩ := by
            have hre : rest.isEmpty = false := by
              cases rest with
              | nil => exact absurd rfl hrest
              | cons x xs => rfl
            simp only [EncLevel.fwdShape, hre, Bool.false_eq_true, if_false,
              List.isEmpty_nil, Bool.not_true, hblocks c, hfin1]
            simp only [Downsample.construct, Downsample.fwdShape, Conv2d.fwdShape,
              Conv2d.outDim, Shape4.mk.injEq]
            refine ⟨trivial, trivial, by omega, by omega⟩
          simp only [List.foldl_cons, hds]
          have hrec := ih bfin1 m lvls2 bfin2 hr hrest B (ch * m) (n / 2) (by omega)
            hdvd2
          rw [hrec]
          have hcomb : n / 2 / 2 ^ (rest.length - 1) = n / 2 ^ ((rest.length - 1) + 1) := by
            rw [Nat.div_div_eq_div_mul, mul_comm 2 (2 ^ (rest.length - 1)), ← pow_succ]
          rw [hcomb, ← hlen]

/-- Shape of Encoder.forward for a successfully constructed Encoder on a
square input of positive, suitably divisible spatial size n: the latent is
(B, z_channels, n / 2^(L-1), n / 2^(L-1)). -/
theorem encoder_construct_forwardShape (resolution in_channels ch : Nat)
    (ch_mult : List Nat) (nrb z : Nat) (e : Encoder)
    (h : Encoder.construct resolution in_channels ch ch_mult nrb z = some e)
    (hne : ch_mult ≠ []) (hnrb : 0 < nrb) (B n : Nat) (hn : 0 < n)
    (hdvd : 2 ^ (ch_mult.length - 1) ∣ n) :
    e.forwardShape ⟨B, in_channels, n, n⟩
      = ⟨B, z, n / 2 ^ (ch_mult.length - 1), n / 2 ^ (ch_mult.length - 1)⟩ := by
  cases hb : Encoder.buildLevels ch nrb ch 1 ch_mult with
  | none => simp [Encoder.construct, hb] at h
  | some p =>
    obtain ⟨lvls, block_in⟩ := p
    cases hc1 : ResnetBlock.construct block_in (some block_in) with
    | none => simp [Encoder.construct, hb, hc1] at h
    | some b1 =>
      cases ha1 : AttnBlock.construct block_in with
      | none => simp [Encoder.construct, hb, hc1, ha1] at h
      | some a1 =>
        cases hgn : GroupNorm.construct 32 block_in with
        | none => simp [Encoder.construct, hb, hc1, ha1, hgn] at h
        | some nout =>
          simp only [Encoder.construct, hb, hc1, ha1, hgn,
            Option.some.injEq] at h
          subst h
          have hrpos : 0 < n / 2 ^ (ch_mult.length - 1) :=
            Nat.div_pos (Nat.le_of_dvd hn hdvd) (pow_pos (by norm_num) _)
          simp only [Encoder.forwardShape]
          rw [Conv2d.fwdShape_k3s1p1 in_channels ch B in_channels n n hn hn]
          rw [encoder_buildLevels_some_fwdShape ch nrb hnrb ch_mult ch 1 lvls
            block_in hb hne B ch n hn hdvd]
          rw [resnet_construct_some_fwdShape block_in block_in b1 hc1 B block_in
            (n / 2 ^ (ch_mult.length - 1)) (n / 2 ^ (ch_mult.length - 1)) hrpos hrpos]
          rw [attn_construct_some_fwdShape block_in a1 ha1 B block_in
            (n / 2 ^ (ch_mult.length - 1)) (n / 2 ^ (ch_mult.length - 1)) hrpos hrpos]
          rw [resnet_construct_some_fwdShape block_in block_in b1 hc1 B block_in
            (n / 2 ^ (ch_mult.length - 1)) (n / 2 ^ (ch_mult.length - 1)) hrpos hrpos]
          rw [Conv2d.fwdShape_k3s1p1 block_in z B block_in
            (n / 2 ^ (ch_mult.length - 1)) (n / 2 ^ (ch_mult.length - 1)) hrpos hrpos]

/-- Claim C4: for every valid configuration (non-empty ch_mult, at least one
residual block per level, resolution positive and divisible by 2^(L-1)) whose
Encoder constructs, Encoder.forward maps a (B, in_channels, resolution,
resolution) input to a latent of shape (B, z_channels, resolution / 2^(L-1),
resolution / 2^(L-1)). -/
theorem encoder_latent_shape (cfg : VQVAEConfig) (B : Nat)
    (hne : cfg.ch_mult ≠ []) (hnrb : 0 < cfg.num_res_blocks)
    (hdvd : 2 ^ (cfg.ch_mult.length - 1) ∣ cfg.resolution)
    (hpos : 0 < cfg.resolution)
    (hbuilt : (Encoder.construct cfg.resolution cfg.in_channels cfg.dim
        cfg.ch_mult cfg.num_res_blocks cfg.z_channels).isSome = true) :
    (Encoder.construct cfg.resolution cfg.in_channels cfg.dim cfg.ch_mult
        cfg.num_res_blocks cfg.z_channels).map
      (fun e => e.forwardShape ⟨B, cfg.in_channels, cfg.resolution, cfg.resolution⟩)
      = some ⟨B, cfg.z_channels, cfg.resolution / 2 ^ (cfg.ch_mult.length - 1),
          cfg.resolution / 2 ^ (cfg.ch_mult.length - 1)⟩ := by
  obtain ⟨e, he⟩ := Option.isSome_iff_exists.mp hbuilt
  rw [he]
  exact congrArg some (encoder_construct_forwardShape cfg.resolution cfg.in_channels
    cfg.dim cfg.ch_mult cfg.num_res_blocks cfg.z_channels e he hne hnrb B
    cfg.resolution hpos hdvd)

/-- Witness for encoder_latent_shape at the example configuration: a
(1, 3, 256, 256) input yields a (1, 64, 32, 32) latent. -/
theorem encoder_latent_shape_witness :
    (Encoder.construct exampleConfig.resolution exampleConfig.in_channels
        exampleConfig.dim exampleConfig.ch_mult exampleConfig.num_res_blocks
        exampleConfig.z_channels).map
      (fun e => e.forwardShape ⟨1, 3, 256, 256⟩)
      = some ⟨1, 64, 32, 32⟩ :=
  encoder_latent_shape exampleConfig 1 (by decide) (by decide) (by decide)
    (by decide) (by decide)

/-- Shape effect of a constructed decoder level stack, applied in reversed
stored order as Decoder.forward does: the channel count ends at the returned
final block_in and both spatial extents are multiplied by 2^(levels - 1). -/
theorem decoder_buildLevels_some_fwdShape (ch nrb : Nat) (muls : List Nat) :
    ∀ (bi0 : Nat) (lvls : List DecLevel) (bfin : Nat),
      Decoder.buildLevels ch nrb bi0 muls = some (lvls, bfin) →
      muls ≠ [] →
      ∀ (B c n : Nat), 0 < n →
        lvls.reverse.foldl (fun h lvl => lvl.fwdShape h) ⟨B, c, n, n⟩
          = ⟨B, bfin, n * 2 ^ (muls.length - 1), n * 2 ^ (muls.length - 1)⟩ := by
  induction muls with
  | nil => intro bi0 lvls bfin h hne; exact absurd rfl hne
  | cons m rest ih =>
    intro bi0 lvls bfin h hne B c n hn
    cases hb : buildBlocks bi0 (ch * m) (nrb + 1) with
    | none => simp [Decoder.buildLevels, hb] at h
    | some q =>
      obtain ⟨blocks, bfin1⟩ := q
      cases hr : Decoder.buildLevels ch nrb bfin1 rest with
      | none => simp [Decoder.buildLevels, hb, hr] at h
      | some q2 =>
        obtain ⟨lvls2, bfin2⟩ := q2
        simp only [Decoder.buildLevels, hb, hr, Option.some.injEq, Prod.mk.injEq] at h
        obtain ⟨rfl, rfl⟩ := h
        obtain ⟨hfin, hfold⟩ :=
          buildBlocks_some_fwdShape (ch * m) (nrb + 1) bi0 blocks bfin1 hb
        have hfin1 : bfin1 = ch * m := by rw [hfin]; simp
        have hblocks : ∀ (cc : Nat), levelBlocksShape false blocks [] ⟨B, cc, n, n⟩
            = ⟨B, ch * m, n, n⟩ := by
          intro cc
          rw [hfold B cc n n hn hn]
          simp
        have hrev : (lvls2 ++ [(⟨blocks, [],
            if rest.isEmpty then none else some (Upsample.construct bfin1)⟩ : DecLevel)]).reverse
            = (⟨blocks, [],
            if rest.isEmpty then none else some (Upsample.construct bfin1)⟩ : DecLevel)
              :: lvls2.reverse := by
          simp
        rw [hrev, List.foldl_cons]
        rcases eq_or_ne rest ([] : List Nat) with hrest | hrest
        · subst hrest
          simp only [Decoder.buildLevels, Option.some.injEq, Prod.mk.injEq] at hr
          obtain ⟨rfl, rfl⟩ := hr
          simp only [List.reverse_nil, List.foldl_nil, List.length_cons, List.length_nil,
            Nat.add_sub_cancel, pow_zero, Nat.mul_one]
          simp only [DecLevel.fwdShape, List.isEmpty_nil, if_true, List.isEmpty_cons,
            Bool.not_true, hblocks c]
          rw [hfin1]
        · have hrl : rest.length ≠ 0 := fun h0 => hrest (List.length_eq_zero.mp h0)
          have hre : rest.isEmpty = false := by
            cases rest with
            | nil => exact absurd rfl hrest
            | cons x xs => rfl
          have hus : DecLevel.fwdShape
              ⟨blocks, [], if rest.isEmpty then none else some (Upsample.construct bfin1)⟩
              ⟨B, c, n, n⟩ = ⟨B, ch * m, 2 * n, 2 * n⟩ := by
            simp only [DecLevel.fwdShape, hre, Bool.false_eq_true, if_false,
              List.isEmpty_nil, Bool.not_true, hblocks c, hfin1]
            simp only [Upsample.construct, Upsample.fwdShape]
            exact Conv2d.fwdShape_k3s1p1 (ch * m) (ch * m) B (ch * m) (2 * n) (2 * n)
              (by omega) (by omega)
          rw [hus]
          have hrec := ih bfin1 lvls2 bfin2 hr hrest B (ch * m) (2 * n) (by omega)
          rw [hrec]
          have hlen : (m :: rest).length - 1 = (rest.length - 1) + 1 := by
            simp [List.length_cons]; omega
          have hpow : 2 * n * 2 ^ (rest.length - 1) = n * 2 ^ ((rest.length - 1) + 1) := by
            rw [pow_succ]; ring
          rw [hpow, hlen]

/-- Shape of Decoder.forward for a successfully constructed Decoder on a
square latent of positive spatial size n: the output is
(B, out_ch, n * 2^(L-1), n * 2^(L-1)). -/
theorem decoder_construct_forwardShape (ch out_ch : Nat) (ch_mult : List Nat)
    (nrb in_channels resolution z : Nat) (d : Decoder)
    (h : Decoder.construct ch out_ch ch_mult nrb in_channels resolution z = some d)
    (hne : ch_mult ≠ []) (B n : Nat) (hn : 0 < n) :
    d.forwardShape ⟨B, z, n, n⟩
      = ⟨B, out_ch, n * 2 ^ (ch_mult.length - 1), n * 2 ^ (ch_mult.length - 1)⟩ := by
  cases hlast : ch_mult.getLast? with
  | none => simp [Decoder.construct, hlast] at h
  | some lastm =>
    cases hc1 : ResnetBlock.construct (ch * lastm) (some (ch * lastm)) with
    | none => simp [Decoder.construct, hlast, hc1] at h
    | some b1 =>
      cases ha1 : AttnBlock.construct (ch * lastm) with
      | none => simp [Decoder.construct, hlast, hc1, ha1] at h
      | some a1 =>
        cases hbl : Decoder.buildLevels ch nrb (ch * lastm) ch_mult.reverse with
        | none => simp [Decoder.construct, hlast, hc1, ha1, hbl] at h
        | some q =>
          obtain ⟨lvls, bfin⟩ := q
          cases hgn : GroupNorm.construct 32 bfin with
          | none => simp [Decoder.construct, hlast, hc1, ha1, hbl, hgn] at h
          | some nout =>
            simp only [Decoder.construct, hlast, hc1, ha1, hbl, hgn,
              Option.some.injEq] at h
            subst h
            have hrevne : ch_mult.reverse ≠ [] := by simpa using hne
            have h2n : 0 < n * 2 ^ (ch_mult.length - 1) := by positivity
            simp only [Decoder.forwardShape]
            rw [Conv2d.fwdShape_k3s1p1 z (ch * lastm) B z n n hn hn]
            rw [resnet_construct_some_fwdShape (ch * lastm) (ch * lastm) b1 hc1
              B (ch * lastm) n n hn hn]
            rw [attn_construct_some_fwdShape (ch * lastm) a1 ha1
              B (ch * lastm) n n hn hn]
            rw [resnet_construct_some_fwdShape (ch * lastm) (ch * lastm) b1 hc1
              B (ch * lastm) n n hn hn]
            rw [decoder_buildLevels_some_fwdShape ch nrb ch_mult.reverse (ch * lastm)
              lvls bfin hbl hrevne B (ch * lastm) n hn]
            rw [List.length_reverse]
            rw [Conv2d.fwdShape_k3s1p1 bfin out_ch B bfin
              (n * 2 ^ (ch_mult.length - 1)) (n * 2 ^ (ch_mult.length - 1)) h2n h2n]

/-- Claim C1: for every valid configuration (non-empty ch_mult, at least one
residual block per level, resolution positive and divisible by 2^(L-1)) whose
model constructs, the full VQVAE forward pass — Encoder, then Quantizer (whose
quantized map keeps the latent shape, per the spec contract), then Decoder —
maps a (B, in_channels, resolution, resolution) input to a reconstruction of
shape (B, out_ch, resolution, resolution). -/
theorem vqvae_forward_shape_roundtrip (cfg : VQVAEConfig) (B : Nat)
    (hne : cfg.ch_mult ≠ []) (hnrb : 0 < cfg.num_res_blocks)
    (hdvd : 2 ^ (cfg.ch_mult.length - 1) ∣ cfg.resolution)
    (hpos : 0 < cfg.resolution)
    (hbuilt : (VQVAE.construct cfg).isSome = true) :
    (VQVAE.construct cfg).map
      (fun m => m.forwardShape ⟨B, cfg.in_channels, cfg.resolution, cfg.resolution⟩)
      = some ⟨B, cfg.out_ch, cfg.resolution, cfg.resolution⟩ := by
  obtain ⟨M, hM⟩ := Option.isSome_iff_exists.mp hbuilt
  rw [hM]
  cases he : Encoder.construct cfg.resolution cfg.in_channels cfg.dim cfg.ch_mult
      cfg.num_res_blocks cfg.z_channels with
  | none => simp [VQVAE.construct, he] at hM
  | some e =>
    cases hd : Decoder.construct cfg.dim cfg.out_ch cfg.ch_mult cfg.num_res_blocks
        cfg.in_channels cfg.resolution cfg.z_channels with
    | none => simp [VQVAE.construct, he, hd] at hM
    | some d =>
      have hM2 : M = ⟨e, d⟩ := by
        simp only [VQVAE.construct, he, hd, Option.some.injEq] at hM
        exact hM.symm
      subst hM2
      refine congrArg some ?_
      have henc := encoder_construct_forwardShape cfg.resolution cfg.in_channels
        cfg.dim cfg.ch_mult cfg.num_res_blocks cfg.z_channels e he hne hnrb B
        cfg.resolution hpos hdvd
      have hrpos : 0 < cfg.resolution / 2 ^ (cfg.ch_mult.length - 1) :=
        Nat.div_pos (Nat.le_of_dvd hpos hdvd) (pow_pos (by norm_num) _)
      have hdec := decoder_construct_forwardShape cfg.dim cfg.out_ch cfg.ch_mult
        cfg.num_res_blocks cfg.in_channels cfg.resolution cfg.z_channels d hd hne B
        (cfg.resolution / 2 ^ (cfg.ch_mult.length - 1)) hrpos
      simp only [VQVAE.forwardShape, VectorQuantizer.fhatShape]
      rw [henc, hdec, Nat.div_mul_cancel hdvd]

/-- Witness for vqvae_forward_shape_roundtrip at the example configuration:
a (1, 3, 256, 256) input yields a (1, 3, 256, 256) reconstruction. -/
theorem vqvae_forward_shape_roundtrip_witness :
    (VQVAE.construct exampleConfig).map
      (fun m => m.forwardShape ⟨1, 3, 256, 256⟩)
      = some ⟨1, 3, 256, 256⟩ :=
  vqvae_forward_shape_roundtrip exampleConfig 1 (by decide) (by decide) (by decide)
    (by decide) (by decide)

end MinVAR
